import Mathlib

/-!
# Verification of `prepare_env.py`

A shallow embedding of the Pyodide environment-preparation module
(`src/prepare_env.py`) together with proofs about its claims.

The module has two independent parts that the claims touch:

* the import scanner / package resolver (`find_imports_to_install`,
  `install_imports`), whose behaviour depends on the host environment
  (the live set of importable modules, the Pyodide import-name to
  package-name table, and the host static import extractor
  `find_imports`); we model that environment as an explicit record
  `PyEnv` and translate the functions as pure functions over it;
* the result serializer (`robust_serialize`), a pure recursive function
  over Python values, modelled by an inductive type `PyVal`.

Python exceptions are modelled with `Except` (uncaught exceptions
propagate as `.error`), and Python's `None` return with `Option.none`.
-/

namespace PrepareEnv

/-- The TypedDict `InstallEntry`, `{module: str, package: str}` from the
source (`class InstallEntry(TypedDict)`). -/
structure InstallEntry where
  module : String
  package : String
deriving Repr, DecidableEq

/-- Outcome of `importlib.import_module(module)` for one module name:
the import succeeds, raises `ModuleNotFoundError`, or raises some other
exception (carried as a message). -/
inductive ImportOutcome where
  | ok
  | moduleNotFound
  | otherError (e : String)
deriving Repr, DecidableEq

/-- The host environment that `prepare_env.py` runs against:

* `importOutcome m` — what `importlib.import_module(m)` does;
* `toPackageName` — the Pyodide `_import_name_to_package_name` table
  (read through `.get`, hence `Option`); the source reads it from
  `pyodide_js._module` or, on `AttributeError`, from `pyodide_js._api`
  (a host-version dispatch that yields the same table, so we model the
  table directly);
* `findImports text` — the host static extractor `find_imports`; per its
  contract it fails only with a `SyntaxError` on unparseable text
  (carried as a message). -/
structure PyEnv where
  importOutcome : String → ImportOutcome
  toPackageName : String → Option String
  findImports : String → Except String (List String)

/-- Translation of `find_imports_to_install` (src/prepare_env.py:29-54).

The Python loop appends, for each module whose import raises
`ModuleNotFoundError`, the entry
`dict(module=module, package=to_package_name.get(module, module))`;
a successful import skips the module; any other exception propagates
out of the function (only `ModuleNotFoundError` is caught), discarding
the accumulated list. -/
def find_imports_to_install (env : PyEnv) : List String → Except String (List InstallEntry)
  | [] => Except.ok []
  | m :: rest =>
    match env.importOutcome m with
    | ImportOutcome.ok => find_imports_to_install env rest
    | ImportOutcome.moduleNotFound =>
        (find_imports_to_install env rest).map
          (fun l => { module := m, package := (env.toPackageName m).getD m } :: l)
    | ImportOutcome.otherError e => Except.error e

/-- The `source_code_or_imports : Union[str, list[str]]` argument of
`install_imports`. -/
inductive SourceOrImports where
  | source (text : String)
  | importNames (names : List String)

/-- Python `==` between a `str` and an `InstallEntry` dict: a string is
never equal to a dict, so this is constantly `false`.  This is the
comparison performed elementwise by `package not in to_install` in
src/prepare_env.py:72, where `to_install` is a `list[InstallEntry]`. -/
def strEqEntry (_s : String) (_e : InstallEntry) : Bool := false

/-- Translation of the additional-packages merge loop of
`install_imports` (src/prepare_env.py:71-73):

```python
for package in additional_packages:
    if package not in to_install:
        to_install.append(dict(module=package, package=package))
```

`package not in to_install` is elementwise Python `==` of the string
`package` against each dict in the list, i.e. `strEqEntry`; the loop
mutates `to_install` while iterating, which the fold captures. -/
def mergeAdditional (to_install : List InstallEntry)
    (additional_packages : List String) : List InstallEntry :=
  additional_packages.foldl
    (fun acc p =>
      if (acc.any (fun e => strEqEntry p e)) = true then acc
      else acc ++ [{ module := p, package := p }])
    to_install

/-- The first part of `install_imports` (src/prepare_env.py:61-67):
obtain the list of imports.  For text input, `find_imports` is run and a
`SyntaxError` makes the whole function `return` (Python `None`, our
`Option.none`); a list input is used verbatim. -/
def getImports (env : PyEnv) : SourceOrImports → Option (List String)
  | SourceOrImports.source text =>
    match env.findImports text with
    | Except.ok l => some l
    | Except.error _ => Option.none
  | SourceOrImports.importNames names => some names

/-- Translation of `install_imports` (src/prepare_env.py:57-85).

The value `Except.ok Option.none` is the Python `return` with no value
(returning `None`) taken on a `SyntaxError`; `Except.error e` is an
exception from the per-module import check propagating out; otherwise
the function returns the merged to-install list.  The micropip
bootstrap and the sequential `micropip.install` calls (lines 75-84) are
host side effects that do not alter the returned list, so they are not
modelled; a failure there propagates, i.e. the function then returns
nothing at all. -/
def install_imports (env : PyEnv) (source_code_or_imports : SourceOrImports)
    (additional_packages : List String) :
    Except String (Option (List InstallEntry)) :=
  match getImports env source_code_or_imports with
  | Option.none => Except.ok Option.none
  | some imports =>
    match find_imports_to_install env imports with
    | Except.error e => Except.error e
    | Except.ok to_install =>
        Except.ok (some (mergeAdditional to_install additional_packages))

/-! ## The result serializer

`robust_serialize` (src/prepare_env.py:102-137) walks an arbitrary
Python value.  `PyVal` is the corresponding value type: each
constructor is one of the runtime shapes the `isinstance` dispatch
chain distinguishes, and `other` covers every value matching none of
them (a Python object abstracted to its `repr` text, which is all the
function ever reads from it). -/

/-- An embedded Python value. `tuple` and `set`/`frozenset` are kept
distinct from `list` because the serializer maps them all to lists;
`date` and `datetime` carry their calendar fields; `other` is a value
of any unrecognized type, carrying its `repr` string. -/
inductive PyVal where
  | str (s : String)
  | int (n : Int)
  | float (f : Float)
  | bool (b : Bool)
  | none
  | list (xs : List PyVal)
  | tuple (xs : List PyVal)
  | dict (kvs : List (PyVal × PyVal))
  | set (xs : List PyVal)
  | frozenset (xs : List PyVal)
  | date (y m d : Nat)
  | datetime (y m d hh mm ss : Nat)
  | other (r : String)
deriving Repr

/-- Zero-padding of a number to a width, as Python `%02d`/`%04d`. -/
def padNum (width n : Nat) : String :=
  let s := toString n
  String.mk (List.replicate (width - s.length) '0') ++ s

/-- Python `datetime.date(y, m, d).isoformat()`: `YYYY-MM-DD`. -/
def dateIso (y m d : Nat) : String :=
  padNum 4 y ++ "-" ++ padNum 2 m ++ "-" ++ padNum 2 d

/-- Python `datetime.datetime(...).isoformat()`: `YYYY-MM-DDTHH:MM:SS`
(microseconds, forced always zero in our model, are omitted by
`isoformat` when zero). -/
def datetimeIso (y m d hh mm ss : Nat) : String :=
  dateIso y m d ++ "T" ++ padNum 2 hh ++ ":" ++ padNum 2 mm ++ ":" ++ padNum 2 ss

/-- Python `str()` coercion of a value, as applied to dictionary keys by
`robust_serialize` (src/prepare_env.py:125, `str(key)`).  Exact for the
key shapes the claims exercise (strings are returned verbatim, `str(1)
= "1"`, `str(True) = "True"`, `str(None) = "None"`, dates/datetimes
render via `isoformat`-style text); for floats and containers —
which cannot occur as keys of a real dict except via tuples — CPython's
textual rendering is abstracted by a fixed rendering of the fields.
No claim depends on those renderings: only `str(key) = key` for string
keys, and str-coercion being a function of the key, matter below. -/
def pyStr : PyVal → String
  | PyVal.str s => s
  | PyVal.int n => toString n
  | PyVal.float f => toString f
  | PyVal.bool b => if b then "True" else "False"
  | PyVal.none => "None"
  | PyVal.list xs => "[list of " ++ toString xs.length ++ "]"
  | PyVal.tuple xs => "(tuple of " ++ toString xs.length ++ ")"
  | PyVal.dict kvs => "(dict of " ++ toString kvs.length ++ ")"
  | PyVal.set xs => "(set of " ++ toString xs.length ++ ")"
  | PyVal.frozenset xs => "(frozenset of " ++ toString xs.length ++ ")"
  | PyVal.date y m d => dateIso y m d
  | PyVal.datetime y m d hh mm ss =>
      dateIso y m d ++ " " ++ padNum 2 hh ++ ":" ++ padNum 2 mm ++ ":" ++ padNum 2 ss
  | PyVal.other r => r

/-- Python `repr()` of a value, as used by the serializer's fallback
branch (src/prepare_env.py:137, `repr(obj)`).  For an unrecognized
object — the only shape the fallback ever receives — this is the
carried `repr` text; the other shapes reuse the `pyStr` rendering. -/
def pyRepr : PyVal → String
  | PyVal.other r => r
  | v => pyStr v

/-- One assignment `d[k] = v` on a Python dict represented as its
insertion-ordered pair list: an existing key keeps its position and has
its value replaced, a new key is appended. -/
def updateAssoc (l : List (String × PyVal)) (k : String) (v : PyVal) :
    List (String × PyVal) :=
  if l.any (fun p => p.1 == k) then
    l.map (fun p => if p.1 == k then (k, v) else p)
  else l ++ [(k, v)]

/-- The dict comprehension `{k: v for (k, v) in pairs}`: assignments in
iteration order, so a later duplicate key overwrites the earlier value. -/
def dictComp (pairs : List (String × PyVal)) : List (String × PyVal) :=
  pairs.foldl (fun acc p => updateAssoc acc p.1 p.2) []

/-- Re-wrap the string keys of a comprehension result as `PyVal` keys. -/
def strPairs (l : List (String × PyVal)) : List (PyVal × PyVal) :=
  l.map (fun p => (PyVal.str p.1, p.2))

mutual

/-- Translation of `robust_serialize` (src/prepare_env.py:102-137),
case by case in the order of its `isinstance` dispatch chain:
primitives returned as-is; lists and tuples to lists of recursively
serialized elements; dicts to `{str(key): robust_serialize(value)}`;
sets and frozensets to lists; dates and datetimes to their `isoformat`
strings; everything else to
`{"type": "not serializable", "repr": repr(obj)}`. -/
def robust_serialize : PyVal → PyVal
  | PyVal.str s => PyVal.str s
  | PyVal.int n => PyVal.int n
  | PyVal.float f => PyVal.float f
  | PyVal.bool b => PyVal.bool b
  | PyVal.none => PyVal.none
  | PyVal.list xs => PyVal.list (serializeList xs)
  | PyVal.tuple xs => PyVal.list (serializeList xs)
  | PyVal.dict kvs => PyVal.dict (strPairs (dictComp (serializePairs kvs)))
  | PyVal.set xs => PyVal.list (serializeList xs)
  | PyVal.frozenset xs => PyVal.list (serializeList xs)
  | PyVal.date y m d => PyVal.str (dateIso y m d)
  | PyVal.datetime y m d hh mm ss => PyVal.str (datetimeIso y m d hh mm ss)
  | PyVal.other r =>
      PyVal.dict [(PyVal.str "type", PyVal.str "not serializable"),
                  (PyVal.str "repr", PyVal.str r)]

/-- The element map `[robust_serialize(item) for item in obj]`. -/
def serializeList : List PyVal → List PyVal
  | [] => []
  | x :: xs => robust_serialize x :: serializeList xs

/-- The pair map `(str(key), robust_serialize(value))` over a dict's
items, before the comprehension collapses duplicate coerced keys. -/
def serializePairs : List (PyVal × PyVal) → List (String × PyVal)
  | [] => []
  | kv :: rest => (pyStr kv.1, robust_serialize kv.2) :: serializePairs rest

end

/-- No string occurs twice in the list (representation invariant of a
Python dict's coerced string keys). -/
def nodupStr : List String → Bool
  | [] => true
  | s :: rest => rest.all (fun t => !(t == s)) && nodupStr rest

mutual

/-- The already-JSON-compatible values, as the claims describe them:
built only from strings, integers, floats, booleans, null, lists of
such values, and string-keyed mappings of such values.  A mapping in
Python has pairwise distinct keys, so the dict case also carries that
representation invariant (`nodupStr`). -/
def isJSONCompat : PyVal → Bool
  | PyVal.str _ => true
  | PyVal.int _ => true
  | PyVal.float _ => true
  | PyVal.bool _ => true
  | PyVal.none => true
  | PyVal.list xs => listJSONCompat xs
  | PyVal.dict kvs =>
      pairsJSONCompat kvs && nodupStr (kvs.map (fun kv => pyStr kv.1))
  | _ => false

def listJSONCompat : List PyVal → Bool
  | [] => true
  | x :: xs => isJSONCompat x && listJSONCompat xs

def pairsJSONCompat : List (PyVal × PyVal) → Bool
  | [] => true
  | kv :: rest =>
      (match kv.1 with | PyVal.str _ => true | _ => false)
        && isJSONCompat kv.2 && pairsJSONCompat rest

end

mutual

/-- The values the JSON encoding step (`json.dump` inside `dump_result`,
src/prepare_env.py:140-144) is guaranteed to accept, in the shape the
claim states: a primitive, a list of JSON-encodable values, or a
string-keyed mapping of JSON-encodable values. -/
def jsonEncodable : PyVal → Bool
  | PyVal.str _ => true
  | PyVal.int _ => true
  | PyVal.float _ => true
  | PyVal.bool _ => true
  | PyVal.none => true
  | PyVal.list xs => listEncodable xs
  | PyVal.dict kvs => pairsEncodable kvs
  | _ => false

def listEncodable : List PyVal → Bool
  | [] => true
  | x :: xs => jsonEncodable x && listEncodable xs

def pairsEncodable : List (PyVal × PyVal) → Bool
  | [] => true
  | kv :: rest =>
      (match kv.1 with | PyVal.str _ => true | _ => false)
        && jsonEncodable kv.2 && pairsEncodable rest

end

/-- The shapes recognized by one of the serializer's `isinstance`
branches (src/prepare_env.py:115-133): primitive, list/tuple sequence,
mapping, set-like, date/date-time.  `false` exactly for the values that
fall through to the fallback branch. -/
def recognizedShape : PyVal → Bool
  | PyVal.other _ => false
  | _ => true

/-! ## Lemmas about the import scanner -/

/-- Holds exactly for the import outcomes that `find_imports_to_install`
does not handle (neither success nor `ModuleNotFoundError`). -/
def isOtherError : ImportOutcome → Bool
  | ImportOutcome.otherError _ => true
  | _ => false

/-- The entry `dict(module=module, package=to_package_name.get(module, module))`
built at src/prepare_env.py:48-53. -/
def mkEntry (env : PyEnv) (m : String) : InstallEntry :=
  { module := m, package := (env.toPackageName m).getD m }

theorem find_spec (env : PyEnv) :
    ∀ imports : List String,
      (∀ m ∈ imports, isOtherError (env.importOutcome m) = false) →
      find_imports_to_install env imports =
        Except.ok ((imports.filter
          (fun m => env.importOutcome m == ImportOutcome.moduleNotFound)).map
            (mkEntry env))
  | [], _ => rfl
  | m :: rest, h => by
    have hm := h m (List.mem_cons_self m rest)
    have hrest := find_spec env rest (fun x hx => h x (List.mem_cons_of_mem m hx))
    cases ho : env.importOutcome m with
    | ok => simp [find_imports_to_install, ho, hrest, List.filter_cons]
    | moduleNotFound =>
        simp [find_imports_to_install, ho, hrest, List.filter_cons, mkEntry,
          Except.map]
    | otherError e => simp [isOtherError, ho] at hm

theorem ok_no_other (env : PyEnv) :
    ∀ (imports : List String) (l : List InstallEntry),
      find_imports_to_install env imports = Except.ok l →
      ∀ m ∈ imports, isOtherError (env.importOutcome m) = false
  | [], _, _, m, hm => absurd hm (List.not_mem_nil m)
  | m :: rest, l, h, x, hx => by
    rw [find_imports_to_install] at h
    cases ho : env.importOutcome m with
    | ok =>
        rw [ho] at h
        rcases List.mem_cons.mp hx with rfl | hx2
        · simp [isOtherError, ho]
        · exact ok_no_other env rest l h x hx2
    | moduleNotFound =>
        rw [ho] at h
        rcases hrest : find_imports_to_install env rest with e | l2
        · rw [hrest] at h; exact absurd h (by simp [Except.map])
        · rcases List.mem_cons.mp hx with rfl | hx2
          · simp [isOtherError, ho]
          · exact ok_no_other env rest l2 hrest x hx2
    | otherError e => rw [ho] at h; exact absurd h (by simp)

theorem find_error_of_other (env : PyEnv) :
    ∀ imports : List String,
      (∃ m ∈ imports, isOtherError (env.importOutcome m) = true) →
      ∃ e, find_imports_to_install env imports = Except.error e
  | [], h => absurd h (by simp)
  | m :: rest, h => by
    cases ho : env.importOutcome m with
    | ok =>
        have hrest : ∃ x ∈ rest, isOtherError (env.importOutcome x) = true := by
          rcases h with ⟨x, hx, hother⟩
          rcases List.mem_cons.mp hx with rfl | hx2
          · rw [ho] at hother; exact absurd hother (by simp [isOtherError])
          · exact ⟨x, hx2, hother⟩
        rcases find_error_of_other env rest hrest with ⟨e, he⟩
        exact ⟨e, by rw [find_imports_to_install, ho]; exact he⟩
    | moduleNotFound =>
        have hrest : ∃ x ∈ rest, isOtherError (env.importOutcome x) = true := by
          rcases h with ⟨x, hx, hother⟩
          rcases List.mem_cons.mp hx with rfl | hx2
          · rw [ho] at hother; exact absurd hother (by simp [isOtherError])
          · exact ⟨x, hx2, hother⟩
        rcases find_error_of_other env rest hrest with ⟨e, he⟩
        exact ⟨e, by rw [find_imports_to_install, ho, he]; rfl⟩
    | otherError e =>
        exact ⟨e, by rw [find_imports_to_install, ho]⟩

theorem find_entry_mem (env : PyEnv) (imports : List String)
    (l : List InstallEntry)
    (h : find_imports_to_install env imports = Except.ok l) :
    ∀ e ∈ l, env.importOutcome e.module = ImportOutcome.moduleNotFound ∧
      e.package = (env.toPackageName e.module).getD e.module := by
  have hno := ok_no_other env imports l h
  rw [find_spec env imports hno] at h
  intro e he
  rw [Except.ok.injEq] at h
  subst h
  rcases List.mem_map.mp he with ⟨m, hm, rfl⟩
  have hpred := List.of_mem_filter hm
  simp only [beq_iff_eq] at hpred
  exact ⟨hpred, rfl⟩

/-! ## Concrete host environments used by the witnesses -/

/-- A demonstration host environment: module `pkg` is missing and the
table maps it to distribution `pkg-dist`; importing `weird` raises a
non-`ModuleNotFoundError` exception; every other module imports fine;
the extractor parses `import pkg` and rejects anything else with a
`SyntaxError`. -/
def envDemo : PyEnv where
  importOutcome := fun m =>
    if m = "pkg" then ImportOutcome.moduleNotFound
    else if m = "weird" then ImportOutcome.otherError "ImportError: broken"
    else ImportOutcome.ok
  toPackageName := fun m => if m = "pkg" then some "pkg-dist" else Option.none
  findImports := fun text =>
    if text = "import pkg" then Except.ok ["pkg"]
    else Except.error "SyntaxError: invalid syntax"

/-- A host environment in which module `foo` is not importable and
absent from the package table, and every other import succeeds. -/
def envFoo : PyEnv where
  importOutcome := fun m =>
    if m = "foo" then ImportOutcome.moduleNotFound else ImportOutcome.ok
  toPackageName := fun _ => Option.none
  findImports := fun _ => Except.ok []

/-! ## Claims about the import scanner and installer -/

/-- C1: the claim says an additional package already present as a
`module` in the to-install list is not appended again.  The code's
membership test `package not in to_install` (src/prepare_env.py:72)
compares the string against the `InstallEntry` dicts themselves, never
their `module` fields, so it is vacuously true and the entry is always
appended: with module `foo` missing, `install_imports(["foo"],
additional_packages=["foo"])` returns the entry for `foo` twice. -/
theorem install_imports_duplicates_additional_package :
    install_imports envFoo (SourceOrImports.importNames ["foo"]) ["foo"] =
      Except.ok (some [{ module := "foo", package := "foo" },
                       { module := "foo", package := "foo" }]) := rfl

/-- C2: the function `install_imports` produces the Python-`None` outcome exactly
when its input is source text on which the host import extractor fails
with a `SyntaxError`; on every list-of-names input that returns
normally the result is a list (never `None`). -/
theorem install_imports_none_iff_syntax_error (env : PyEnv)
    (inp : SourceOrImports) (ap : List String) :
    (install_imports env inp ap = Except.ok Option.none ↔
      ∃ text, inp = SourceOrImports.source text ∧
        ∃ e, env.findImports text = Except.error e) ∧
    (∀ names r,
      install_imports env (SourceOrImports.importNames names) ap = Except.ok r →
      ∃ l, r = some l) := by
  constructor
  · cases inp with
    | source text =>
      rw [install_imports, getImports]
      cases hf : env.findImports text with
      | error e =>
        constructor
        · intro _; exact ⟨text, rfl, e, hf⟩
        · intro _; rfl
      | ok li =>
        constructor
        · intro h
          exfalso
          cases hfind : find_imports_to_install env li with
          | error e2 => simp [hfind] at h
          | ok l2 => simp [hfind] at h
        · rintro ⟨text2, heq, e, he⟩
          cases heq
          rw [hf] at he; cases he
    | importNames names =>
      rw [install_imports, getImports]
      constructor
      · intro h
        exfalso
        cases hfind : find_imports_to_install env names with
        | error e2 => simp [hfind] at h
        | ok l2 => simp [hfind] at h
      · rintro ⟨text2, heq, _⟩; cases heq
  · intro names r h
    rw [install_imports, getImports] at h
    cases hfind : find_imports_to_install env names with
    | error e => simp [hfind] at h
    | ok li =>
      simp only [hfind, Except.ok.injEq] at h
      exact ⟨_, h.symm⟩

/-- Witness for C2: at `envDemo`, unparseable text yields `None`, and a
list input that returns normally yields a list. -/
theorem install_imports_none_iff_syntax_error_witness :
    install_imports envDemo (SourceOrImports.source "def (") [] =
      Except.ok Option.none ∧
    ∃ l, (some [] : Option (List InstallEntry)) = some l :=
  ⟨(install_imports_none_iff_syntax_error envDemo
      (SourceOrImports.source "def (") []).1.mpr
      ⟨"def (", rfl, "SyntaxError: invalid syntax", rfl⟩,
   (install_imports_none_iff_syntax_error envDemo
      (SourceOrImports.source "def (") []).2 ["json"] (some []) rfl⟩

/-- C3: when no import raises an unexpected exception,
`find_imports_to_install` returns exactly the entries for the names
whose import fails with `ModuleNotFoundError`, in input order, and
omits every name that imports successfully. -/
theorem find_imports_to_install_filters_missing (env : PyEnv)
    (imports : List String)
    (h : ∀ m ∈ imports, isOtherError (env.importOutcome m) = false) :
    find_imports_to_install env imports =
      Except.ok ((imports.filter
        (fun m => env.importOutcome m == ImportOutcome.moduleNotFound)).map
          (mkEntry env)) :=
  find_spec env imports h

/-- Witness for C3: of `["json", "pkg", "math"]` only the missing `pkg`
is kept, as the entry `{module := "pkg", package := "pkg-dist"}`. -/
theorem find_imports_to_install_filters_missing_witness :
    find_imports_to_install envDemo ["json", "pkg", "math"] =
      Except.ok (((["json", "pkg", "math"]).filter
        (fun m => envDemo.importOutcome m == ImportOutcome.moduleNotFound)).map
          (mkEntry envDemo)) :=
  find_imports_to_install_filters_missing envDemo ["json", "pkg", "math"]
    (by decide)

/-- C4: every entry produced by a successful `find_imports_to_install`
call for a missing module `m` records the lookup table's value as its
`package` when the table contains `m`, and `m` itself when it does
not. -/
theorem find_imports_to_install_package_lookup (env : PyEnv)
    (imports : List String) (l : List InstallEntry) (m : String)
    (hok : find_imports_to_install env imports = Except.ok l)
    (hm : m ∈ imports)
    (hmiss : env.importOutcome m = ImportOutcome.moduleNotFound) :
    ∃ e ∈ l, e.module = m ∧
      (env.toPackageName m = Option.none → e.package = m) ∧
      (∀ p, env.toPackageName m = some p → e.package = p) := by
  have hno := ok_no_other env imports l hok
  rw [find_spec env imports hno, Except.ok.injEq] at hok
  subst hok
  refine ⟨mkEntry env m, ?_, rfl, ?_, ?_⟩
  · exact List.mem_map_of_mem _ (List.mem_filter.mpr ⟨hm, by simp [hmiss]⟩)
  · intro hnone; simp [mkEntry, hnone]
  · intro p hp; simp [mkEntry, hp]

/-- Witness for C4: the missing `pkg` resolves through the table to
`pkg-dist`. -/
theorem find_imports_to_install_package_lookup_witness :
    ∃ e ∈ [InstallEntry.mk "pkg" "pkg-dist"], e.module = "pkg" ∧
      (envDemo.toPackageName "pkg" = Option.none → e.package = "pkg") ∧
      (∀ p, envDemo.toPackageName "pkg" = some p → e.package = p) :=
  find_imports_to_install_package_lookup envDemo ["pkg"]
    [InstallEntry.mk "pkg" "pkg-dist"] "pkg" rfl (by decide) (by decide)

/-- C5: the function `find_imports_to_install` raises (returns `Except.error`)
exactly when some input name's import raises an exception other than
`ModuleNotFoundError`, and every entry of a successful result comes
from the `ModuleNotFoundError` case — only that failure is caught and
converted into a to-install entry. -/
theorem find_imports_to_install_error_propagation (env : PyEnv)
    (imports : List String) :
    ((∃ e, find_imports_to_install env imports = Except.error e) ↔
      ∃ m ∈ imports, isOtherError (env.importOutcome m) = true) ∧
    (∀ l, find_imports_to_install env imports = Except.ok l →
      ∀ e ∈ l, env.importOutcome e.module = ImportOutcome.moduleNotFound) := by
  constructor
  · constructor
    · rintro ⟨e, he⟩
      by_contra hno
      push_neg at hno
      have hno2 : ∀ m ∈ imports, isOtherError (env.importOutcome m) = false := by
        intro m hm
        cases hb : isOtherError (env.importOutcome m)
        · rfl
        · exact absurd hb (hno m hm)
      rw [find_spec env imports hno2] at he
      cases he
    · exact find_error_of_other env imports
  · intro l hok e he
    exact (find_entry_mem env imports l hok e he).1

/-- Witness for C5: importing `weird` raises a non-"not found" error,
so the whole call raises; a successful call on `["pkg"]` yields only
entries whose module import raised `ModuleNotFoundError`. -/
theorem find_imports_to_install_error_propagation_witness :
    (∃ e, find_imports_to_install envDemo ["json", "weird"] = Except.error e) ∧
    ∀ e ∈ [InstallEntry.mk "pkg" "pkg-dist"],
      envDemo.importOutcome e.module = ImportOutcome.moduleNotFound :=
  ⟨(find_imports_to_install_error_propagation envDemo ["json", "weird"]).1.mpr
      ⟨"weird", by decide, by decide⟩,
   (find_imports_to_install_error_propagation envDemo ["pkg"]).2
      [InstallEntry.mk "pkg" "pkg-dist"] rfl⟩

/-! ## Lemmas about the serializer's dict comprehension -/

theorem serializeList_eq_map :
    ∀ xs : List PyVal, serializeList xs = xs.map robust_serialize
  | [] => rfl
  | x :: xs => by rw [serializeList, serializeList_eq_map xs, List.map_cons]

theorem serializePairs_eq_map :
    ∀ kvs : List (PyVal × PyVal),
      serializePairs kvs =
        kvs.map (fun kv => (pyStr kv.1, robust_serialize kv.2))
  | [] => rfl
  | kv :: rest => by
      rw [serializePairs, serializePairs_eq_map rest, List.map_cons]

/-- Lookup `d[s]` on a dict represented as its pair list: the value at the
first (and, for a well-formed dict, only) pair whose key is `s`. -/
def lookupD (l : List (String × PyVal)) (s : String) : Option PyVal :=
  (l.find? (fun p => p.1 == s)).map (fun p => p.2)

theorem lookupD_map_update_ne (k : String) (v : PyVal) (s : String)
    (hks : k ≠ s) (l : List (String × PyVal)) :
    lookupD (l.map (fun p => if p.1 == k then (k, v) else p)) s = lookupD l s := by
  simp only [lookupD, List.find?_map]
  have hfun : ((fun p : String × PyVal => p.1 == s) ∘
      (fun p => if p.1 == k then (k, v) else p)) =
      (fun p : String × PyVal => p.1 == s) := by
    funext q
    by_cases hqk : q.1 = k
    · simp [Function.comp, hqk, Ne.symm hks, hks]
    · simp [Function.comp, hqk]
  rw [hfun]
  cases hf : l.find? (fun p => p.1 == s) with
  | none => rfl
  | some q =>
    have hq : q.1 = s := by simpa using List.find?_some hf
    have hqk : ¬ q.1 = k := by rw [hq]; exact Ne.symm hks
    simp [Option.map_map, Function.comp, hqk]

theorem lookupD_map_update_self (k : String) (v : PyVal)
    (l : List (String × PyVal)) (h : l.any (fun p => p.1 == k) = true) :
    lookupD (l.map (fun p => if p.1 == k then (k, v) else p)) k = some v := by
  simp only [lookupD, List.find?_map]
  have hfun : ((fun p : String × PyVal => p.1 == k) ∘
      (fun p => if p.1 == k then (k, v) else p)) =
      (fun p : String × PyVal => p.1 == k) := by
    funext q
    by_cases hqk : q.1 = k
    · simp [Function.comp, hqk]
    · simp [Function.comp, hqk]
  rw [hfun]
  cases hf : l.find? (fun p => p.1 == k) with
  | none =>
    rcases List.any_eq_true.mp h with ⟨q, hq, hqk⟩
    exact absurd hqk (List.find?_eq_none.mp hf q hq)
  | some q =>
    have hq : q.1 = k := by simpa using List.find?_some hf
    simp [Option.map_map, Function.comp, hq]

theorem lookupD_append_single (l : List (String × PyVal)) (k : String)
    (v : PyVal) (s : String) :
    lookupD (l ++ [(k, v)]) s =
      (lookupD l s).or (if k = s then some v else Option.none) := by
  simp only [lookupD, List.find?_append]
  cases hfind : l.find? (fun p => p.1 == s) with
  | some p => simp [hfind]
  | none =>
    by_cases hks : k = s
    · subst hks
      simp [hfind, List.find?_cons]
    · have h1 : (k == s) = false := by simp [hks]
      simp [hfind, List.find?_cons, h1, hks]

theorem lookupD_updateAssoc (l : List (String × PyVal)) (k : String)
    (v : PyVal) (s : String) :
    lookupD (updateAssoc l k v) s = if k = s then some v else lookupD l s := by
  rw [updateAssoc]
  by_cases hany : l.any (fun p => p.1 == k) = true
  · rw [if_pos hany]
    by_cases hks : k = s
    · subst hks
      rw [if_pos rfl]
      exact lookupD_map_update_self k v l hany
    · rw [if_neg hks]
      exact lookupD_map_update_ne k v s hks l
  · rw [if_neg hany, lookupD_append_single]
    by_cases hks : k = s
    · rw [if_pos hks]
      have hnone : lookupD l s = Option.none := by
        subst hks
        rw [lookupD]
        cases hfind : l.find? (fun p => p.1 == k) with
        | some p => exact absurd (List.any_eq_true.mpr
            ⟨p, List.mem_of_find?_eq_some hfind, List.find?_some hfind⟩) hany
        | none => rfl
      simp [hnone, hks]
    · simp [hks]

theorem lookupD_dictFold (s : String) :
    ∀ (pairs acc : List (String × PyVal)),
      lookupD (List.foldl (fun a p => updateAssoc a p.1 p.2) acc pairs) s =
        (((pairs.filter (fun p => p.1 == s)).getLast?).map
          (fun p => p.2)).or (lookupD acc s)
  | [], acc => by simp
  | p :: rest, acc => by
    rw [List.foldl_cons, lookupD_dictFold s rest (updateAssoc acc p.1 p.2),
      lookupD_updateAssoc, List.filter_cons]
    by_cases hps : p.1 = s
    · simp only [hps, beq_self_eq_true, if_true, List.getLast?_cons]
      cases hlast : (rest.filter (fun q => q.1 == s)).getLast? with
      | some q => simp [hlast]
      | none => simp [hlast]
    · simp [hps]

theorem lookupD_dictComp (pairs : List (String × PyVal)) (s : String) :
    lookupD (dictComp pairs) s =
      ((pairs.filter (fun p => p.1 == s)).getLast?).map (fun p => p.2) := by
  rw [dictComp, lookupD_dictFold s pairs []]
  simp [lookupD]

theorem any_updateAssoc (l : List (String × PyVal)) (k : String)
    (v : PyVal) (s : String) :
    (updateAssoc l k v).any (fun p => p.1 == s) =
      (l.any (fun p => p.1 == s) || (k == s)) := by
  rw [updateAssoc]
  by_cases hany : l.any (fun p => p.1 == k) = true
  · rw [if_pos hany, List.any_map]
    by_cases hks : k = s
    · subst hks
      simp only [Bool.or_comm, Bool.true_or, beq_self_eq_true, Bool.or_true]
      rw [List.any_eq_true]
      rcases List.any_eq_true.mp hany with ⟨p, hp, hpk⟩
      exact ⟨p, hp, by simp [Function.comp, hpk]⟩
    · have h1 : (k == s) = false := by simp [hks]
      rw [h1, Bool.or_false]
      congr 1
      funext p
      by_cases hpk : p.1 = k
      · simp [Function.comp, hpk, hks, Ne.symm hks]
      · simp [Function.comp, hpk]
  · rw [if_neg hany, List.any_append]
    simp [List.any_cons]

theorem any_dictFold (s : String) :
    ∀ (pairs acc : List (String × PyVal)),
      (List.foldl (fun a p => updateAssoc a p.1 p.2) acc pairs).any
          (fun p => p.1 == s) =
        (acc.any (fun p => p.1 == s) || pairs.any (fun p => p.1 == s))
  | [], acc => by simp
  | p :: rest, acc => by
    rw [List.foldl_cons, any_dictFold s rest (updateAssoc acc p.1 p.2),
      any_updateAssoc, List.any_cons]
    cases acc.any (fun p => p.1 == s) <;> cases (p.1 == s) <;> simp

/-! ## Preservation of Python dict semantics under the comprehension -/

theorem foldl_update_fresh :
    ∀ (pairs acc : List (String × PyVal)),
      (∀ p ∈ pairs, acc.any (fun q => q.1 == p.1) = false) →
      nodupStr (pairs.map Prod.fst) = true →
      List.foldl (fun a p => updateAssoc a p.1 p.2) acc pairs = acc ++ pairs
  | [], acc, _, _ => by simp
  | p :: rest, acc, hfresh, hnodup => by
    have hpfresh : acc.any (fun q => q.1 == p.1) = false :=
      hfresh p (List.mem_cons_self p rest)
    have hnodup2 : (rest.map Prod.fst).all (fun t => !(t == p.1)) = true ∧
        nodupStr (rest.map Prod.fst) = true := by
      simpa [nodupStr, List.map_cons, Bool.and_eq_true] using hnodup
    have hupd : updateAssoc acc p.1 p.2 = acc ++ [p] := by
      rw [updateAssoc, if_neg (by simp [hpfresh])]
    have hfresh2 : ∀ q ∈ rest, (acc ++ [p]).any (fun r => r.1 == q.1) = false := by
      intro q hq
      have h1 := hfresh q (List.mem_cons_of_mem p hq)
      have h2 : (q.1 == p.1) = false := by
        have := List.all_eq_true.mp hnodup2.1 q.1 (List.mem_map_of_mem Prod.fst hq)
        simpa using this
      have h3 : (p.1 == q.1) = false := by
        have hqp : ¬ q.1 = p.1 := by simpa using h2
        have hne : ¬ p.1 = q.1 := fun hE => hqp hE.symm
        simpa using hne
      rw [List.any_append]
      simp [h1, List.any_cons, h3]
    rw [List.foldl_cons, hupd,
      foldl_update_fresh rest (acc ++ [p]) hfresh2 hnodup2.2, List.append_assoc,
      List.singleton_append]

theorem dictComp_nodup (pairs : List (String × PyVal))
    (h : nodupStr (pairs.map Prod.fst) = true) : dictComp pairs = pairs := by
  rw [dictComp, foldl_update_fresh pairs [] (fun p _ => rfl) h, List.nil_append]

theorem strPairs_map_id :
    ∀ kvs : List (PyVal × PyVal), pairsJSONCompat kvs = true →
      strPairs (kvs.map (fun kv => (pyStr kv.1, kv.2))) = kvs
  | [], _ => rfl
  | (k, v) :: rest, h => by
    rw [pairsJSONCompat, Bool.and_eq_true, Bool.and_eq_true] at h
    obtain ⟨⟨ha, _⟩, hc⟩ := h
    cases k with
    | str s =>
      rw [List.map_cons, strPairs, List.map_cons, ← strPairs]
      rw [strPairs_map_id rest hc]
      rfl
    | _ => exact absurd ha (by simp)

/-! ## The serializer is the identity on JSON-compatible values -/

mutual

theorem robust_serialize_id :
    ∀ x : PyVal, isJSONCompat x = true → robust_serialize x = x
  | PyVal.str _, _ => rfl
  | PyVal.int _, _ => rfl
  | PyVal.float _, _ => rfl
  | PyVal.bool _, _ => rfl
  | PyVal.none, _ => rfl
  | PyVal.list xs, h => by
    rw [robust_serialize, serializeList_id xs (by simpa [isJSONCompat] using h)]
  | PyVal.tuple _, h => by simp [isJSONCompat] at h
  | PyVal.dict kvs, h => by
    have h2 : pairsJSONCompat kvs = true ∧
        nodupStr (kvs.map (fun kv => pyStr kv.1)) = true := by
      simpa [isJSONCompat, Bool.and_eq_true] using h
    have hkeys : (kvs.map (fun kv => (pyStr kv.1, kv.2))).map Prod.fst =
        kvs.map (fun kv => pyStr kv.1) := by
      rw [List.map_map]; rfl
    rw [robust_serialize, serializePairsKey_id kvs h2.1,
      dictComp_nodup _ (by rw [hkeys]; exact h2.2), strPairs_map_id kvs h2.1]
  | PyVal.set _, h => by simp [isJSONCompat] at h
  | PyVal.frozenset _, h => by simp [isJSONCompat] at h
  | PyVal.date _ _ _, h => by simp [isJSONCompat] at h
  | PyVal.datetime _ _ _ _ _ _, h => by simp [isJSONCompat] at h
  | PyVal.other _, h => by simp [isJSONCompat] at h

theorem serializeList_id :
    ∀ xs : List PyVal, listJSONCompat xs = true → serializeList xs = xs
  | [], _ => rfl
  | x :: xs, h => by
    have h2 : isJSONCompat x = true ∧ listJSONCompat xs = true := by
      simpa [listJSONCompat, Bool.and_eq_true] using h
    rw [serializeList, robust_serialize_id x h2.1, serializeList_id xs h2.2]

theorem serializePairsKey_id :
    ∀ kvs : List (PyVal × PyVal), pairsJSONCompat kvs = true →
      serializePairs kvs = kvs.map (fun kv => (pyStr kv.1, kv.2))
  | [], _ => rfl
  | (k, v) :: rest, h => by
    rw [pairsJSONCompat, Bool.and_eq_true, Bool.and_eq_true] at h
    obtain ⟨⟨_, hb⟩, hc⟩ := h
    rw [serializePairs, robust_serialize_id v hb,
      serializePairsKey_id rest hc, List.map_cons]

end

/-! ## Every serializer output is JSON-encodable -/

theorem updateAssoc_all (P : PyVal → Bool) (l : List (String × PyVal))
    (k : String) (v : PyVal) (hl : l.all (fun p => P p.2) = true)
    (hv : P v = true) :
    (updateAssoc l k v).all (fun p => P p.2) = true := by
  rw [updateAssoc]
  by_cases hany : l.any (fun p => p.1 == k) = true
  · rw [if_pos hany, List.all_eq_true]
    intro x hx
    rcases List.mem_map.mp hx with ⟨q, hq, rfl⟩
    by_cases hqk : (q.1 == k) = true
    · simp [hqk, hv]
    · simp only [Bool.not_eq_true] at hqk
      simp only [hqk, if_false]
      exact List.all_eq_true.mp hl q hq
  · rw [if_neg hany, List.all_append]
    simp [hl, hv, List.all_cons]

theorem foldl_update_all (P : PyVal → Bool) :
    ∀ (pairs acc : List (String × PyVal)),
      acc.all (fun p => P p.2) = true → pairs.all (fun p => P p.2) = true →
      (List.foldl (fun a p => updateAssoc a p.1 p.2) acc pairs).all
        (fun p => P p.2) = true
  | [], acc, ha, _ => ha
  | p :: rest, acc, ha, hp => by
    have h2 : P p.2 = true ∧ rest.all (fun q => P q.2) = true := by
      simpa [List.all_cons, Bool.and_eq_true] using hp
    rw [List.foldl_cons]
    exact foldl_update_all P rest (updateAssoc acc p.1 p.2)
      (updateAssoc_all P acc p.1 p.2 ha h2.1) h2.2

theorem dictComp_all (P : PyVal → Bool) (pairs : List (String × PyVal))
    (hp : pairs.all (fun p => P p.2) = true) :
    (dictComp pairs).all (fun p => P p.2) = true := by
  rw [dictComp]
  exact foldl_update_all P pairs [] rfl hp

theorem strPairs_pairsEncodable :
    ∀ l : List (String × PyVal), l.all (fun p => jsonEncodable p.2) = true →
      pairsEncodable (strPairs l) = true
  | [], _ => rfl
  | p :: rest, h => by
    have h2 : jsonEncodable p.2 = true ∧
        rest.all (fun q => jsonEncodable q.2) = true := by
      simpa [List.all_cons, Bool.and_eq_true] using h
    rw [strPairs, List.map_cons, ← strPairs, pairsEncodable]
    simp [h2.1, strPairs_pairsEncodable rest h2.2]

mutual

theorem robust_serialize_enc :
    ∀ x : PyVal, jsonEncodable (robust_serialize x) = true
  | PyVal.str _ => rfl
  | PyVal.int _ => rfl
  | PyVal.float _ => rfl
  | PyVal.bool _ => rfl
  | PyVal.none => rfl
  | PyVal.list xs => by
    rw [robust_serialize, jsonEncodable]; exact serializeList_enc xs
  | PyVal.tuple xs => by
    rw [robust_serialize, jsonEncodable]; exact serializeList_enc xs
  | PyVal.set xs => by
    rw [robust_serialize, jsonEncodable]; exact serializeList_enc xs
  | PyVal.frozenset xs => by
    rw [robust_serialize, jsonEncodable]; exact serializeList_enc xs
  | PyVal.date _ _ _ => rfl
  | PyVal.datetime _ _ _ _ _ _ => rfl
  | PyVal.other _ => rfl
  | PyVal.dict kvs => by
    rw [robust_serialize, jsonEncodable]
    exact strPairs_pairsEncodable _
      (dictComp_all jsonEncodable _ (serializePairs_vals_enc kvs))

theorem serializeList_enc :
    ∀ xs : List PyVal, listEncodable (serializeList xs) = true
  | [] => rfl
  | x :: xs => by
    rw [serializeList, listEncodable]
    simp [robust_serialize_enc x, serializeList_enc xs]

theorem serializePairs_vals_enc :
    ∀ kvs : List (PyVal × PyVal),
      (serializePairs kvs).all (fun p => jsonEncodable p.2) = true
  | [] => rfl
  | kv :: rest => by
    rw [serializePairs, List.all_cons]
    simp [robust_serialize_enc kv.2, serializePairs_vals_enc rest]

end

/-! ## Claims about the result serializer -/

/-- A JSON-compatible sample value used by the witnesses. -/
def jsonSample : PyVal :=
  PyVal.dict [(PyVal.str "a", PyVal.int 1),
              (PyVal.str "b", PyVal.list [PyVal.str "c", PyVal.bool true,
                PyVal.none])]

/-- C6: the function `robust_serialize` is idempotent on already-JSON-compatible
input: serializing a second time changes nothing. -/
theorem robust_serialize_idempotent_on_json (x : PyVal)
    (h : isJSONCompat x = true) :
    robust_serialize (robust_serialize x) = robust_serialize x := by
  rw [robust_serialize_id x h, robust_serialize_id x h]

/-- Witness for C6 at a concrete JSON-compatible value. -/
theorem robust_serialize_idempotent_on_json_witness :
    robust_serialize (robust_serialize jsonSample) = robust_serialize jsonSample :=
  robust_serialize_idempotent_on_json jsonSample rfl

/-- C7: a value matching none of the recognized shapes is serialized to
the two-field record `{"type": "not serializable", "repr": repr(obj)}`. -/
theorem robust_serialize_fallback (x : PyVal)
    (h : recognizedShape x = false) :
    robust_serialize x =
      PyVal.dict [(PyVal.str "type", PyVal.str "not serializable"),
                  (PyVal.str "repr", PyVal.str (pyRepr x))] := by
  cases x <;> first | rfl | simp [recognizedShape] at h

/-- Witness for C7 at a concrete unrecognized object. -/
theorem robust_serialize_fallback_witness :
    robust_serialize (PyVal.other "<Foo object at 0x7f>") =
      PyVal.dict [(PyVal.str "type", PyVal.str "not serializable"),
                  (PyVal.str "repr",
                    PyVal.str (pyRepr (PyVal.other "<Foo object at 0x7f>")))] :=
  robust_serialize_fallback (PyVal.other "<Foo object at 0x7f>") rfl

/-- C8: for every (finite, acyclic) input value, the serializer's
output is JSON-encodable — a primitive, a list of JSON-encodable
values, or a string-keyed mapping of JSON-encodable values — so the
`json.dump` step inside `dump_result` never fails with an encoding
error. -/
theorem robust_serialize_json_encodable (x : PyVal) :
    jsonEncodable (robust_serialize x) = true :=
  robust_serialize_enc x

/-- C9: on a dict, `robust_serialize` builds the comprehension
`{str(key): robust_serialize(value)}`: looking up any string `s` in the
result gives the recursively serialized value of the *last* input pair
whose key coerces to `s` (last write wins), and `s` is a key of the
result exactly when some input key coerces to it. -/
theorem robust_serialize_dict_spec (kvs : List (PyVal × PyVal)) (s : String) :
    robust_serialize (PyVal.dict kvs) =
      PyVal.dict (strPairs (dictComp (serializePairs kvs))) ∧
    lookupD (dictComp (serializePairs kvs)) s =
      ((kvs.filter (fun kv => pyStr kv.1 == s)).getLast?).map
        (fun kv => robust_serialize kv.2) ∧
    (dictComp (serializePairs kvs)).any (fun p => p.1 == s) =
      kvs.any (fun kv => pyStr kv.1 == s) := by
  refine ⟨rfl, ?_, ?_⟩
  · rw [lookupD_dictComp, serializePairs_eq_map, List.filter_map,
      List.getLast?_map, Option.map_map]
    rfl
  · rw [serializePairs_eq_map, dictComp, any_dictFold s _ []]
    simp only [List.any_nil, Bool.false_or]
    induction kvs with
    | nil => rfl
    | cons kv rest ih => simp [List.map_cons, List.any_cons, ih]

/-- C10: the function `robust_serialize` is the identity (not merely idempotent) on
already-JSON-compatible input. -/
theorem robust_serialize_identity_on_json (x : PyVal)
    (h : isJSONCompat x = true) : robust_serialize x = x :=
  robust_serialize_id x h

/-- Witness for C10 at a concrete JSON-compatible value. -/
theorem robust_serialize_identity_on_json_witness :
    robust_serialize jsonSample = jsonSample :=
  robust_serialize_identity_on_json jsonSample rfl

end PrepareEnv
